import Mathlib

/-!
Verification of the challan field-extraction program (`src/app.py`).

The program's core is embedded shallowly:
* the module-level `patterns` dict of regular expressions becomes an explicit
  catalog `patterns : List (String × Pat)`, where `Pat` is a small pattern
  language covering exactly the regex constructs the catalog uses (a literal
  label prefix followed by one capture group built from literal characters,
  fixed-count character-class repetitions, and greedy `+` repetitions);
* `re.search` becomes `reSearch`: scan start positions left to right and,
  at the first position where the pattern matches, return the capture group.
  In this catalog every greedy `+` is the final token of its group, so greedy
  consumption without backtracking coincides with Python's leftmost-greedy
  search semantics;
* `extract_data_from_pdf` becomes a function from a `DocBehavior` (either the
  page texts pdfplumber would deliver, or a raised fault while opening or
  reading the document) to the ordered association list the Python dict holds;
* the Streamlit driver's aggregation (`all_data`, the DataFrame column
  reordering `df[field_keys]`, and `convert_df_to_csv`) becomes `buildTable`,
  `projectRow`, `appResult` and `convert_df_to_csv`. Byte-identity of the
  UTF-8 encoded download equals equality of the produced `String`, since
  UTF-8 encoding is injective.

Character classes are read in their ASCII meaning (the documents this catalog
targets contain ASCII values; the rupee sign appears only as a literal).
-/

namespace Challan

/-- Character classes occurring in the catalog's regexes:
digit for a backslash-d, word for a backslash-w, dot for `.` (any character except
newline), digitComma for a digit-or-comma class, digitUpper for a
digit-or-uppercase class, alpha for an upper-or-lower-letter class. -/
inductive Cls where
  | digit
  | word
  | dot
  | digitComma
  | digitUpper
  | alpha
deriving DecidableEq

/-- Membership of a character in a class (ASCII reading). -/
def Cls.mem : Cls → Char → Bool
  | .digit, c => c.isDigit
  | .word, c => c.isAlphanum || c == '_'
  | .dot, c => c != '\n'
  | .digitComma, c => c.isDigit || c == ','
  | .digitUpper, c => c.isDigit || c.isUpper
  | .alpha, c => c.isAlpha

/-- One token of a capture-group body: a literal character, a class repeated
exactly `n` times, or a greedy `+` repetition of a class. -/
inductive Tok where
  | lit (c : Char)
  | rep (cl : Cls) (n : Nat)
  | plus (cl : Cls)
deriving DecidableEq

/-- A catalog pattern: a literal label `pre` immediately followed by one
capture group `grp`. Every regex in the source has this shape. -/
structure Pat where
  pre : List Char
  grp : List Tok
deriving DecidableEq

/-- Consume the literal prefix; return the remaining text, or `none` when the
text does not start with the literal. -/
def dropLit : List Char → List Char → Option (List Char)
  | [], s => some s
  | _ :: _, [] => none
  | c :: cs, x :: xs => if c == x then dropLit cs xs else none

/-- Consume exactly `n` characters of class `cl`; return them and the rest. -/
def takeN (cl : Cls) : Nat → List Char → Option (List Char × List Char)
  | 0, s => some ([], s)
  | _ + 1, [] => none
  | n + 1, c :: s =>
    if cl.mem c then (takeN cl n s).map (fun p => (c :: p.1, p.2)) else none

/-- Greedily consume the longest prefix of characters of class `cl`. -/
def takeCls (cl : Cls) : List Char → List Char × List Char
  | [] => ([], [])
  | c :: s =>
    if cl.mem c then
      let p := takeCls cl s
      (c :: p.1, p.2)
    else
      ([], c :: s)

/-- Match a group body at the front of the text; return the characters the
group consumed (the capture) and the remaining text. Greedy `+` consumption
is final-token-only in this catalog, so no backtracking is needed. -/
def matchGrp : List Tok → List Char → Option (List Char × List Char)
  | [], s => some ([], s)
  | .lit _ :: _, [] => none
  | .lit c :: ts, x :: s =>
    if c == x then (matchGrp ts s).map (fun p => (x :: p.1, p.2)) else none
  | .rep cl n :: ts, s =>
    match takeN cl n s with
    | some (tk, r) => (matchGrp ts r).map (fun p => (tk ++ p.1, p.2))
    | none => none
  | .plus cl :: ts, s =>
    let p := takeCls cl s
    if p.1.isEmpty then none
    else (matchGrp ts p.2).map (fun q => (p.1 ++ q.1, q.2))

/-- Match the whole pattern at the front of the text; return the capture. -/
def matchAt (p : Pat) (s : List Char) : Option (List Char) :=
  (dropLit p.pre s).bind (fun r => (matchGrp p.grp r).map Prod.fst)

/-- `re.search`: try each start position from the left; the first position
where the pattern matches yields the capture group. -/
def reSearch (p : Pat) : List Char → Option (List Char)
  | [] => matchAt p []
  | c :: s =>
    match matchAt p (c :: s) with
    | some g => some g
    | none => reSearch p s

/-- Python's `str.strip`: drop leading and trailing whitespace. -/
def pyStrip (g : List Char) : String :=
  (((g.dropWhile Char.isWhitespace).reverse.dropWhile Char.isWhitespace).reverse).asString

/-- The body of the matching loop for one field:
`match.group(1).strip() if match else None`. -/
def matchField (p : Pat) (text : String) : Option String :=
  (reSearch p text.toList).map pyStrip

/-- The module-level `patterns` dict: field name to locator pattern, in the
source's insertion order. -/
def patterns : List (String × Pat) := [
  ("ITNS No.", ⟨"ITNS No. : ".toList, [.plus .digit]⟩),
  ("TAN", ⟨"TAN : ".toList, [.plus .word]⟩),
  ("Name", ⟨"Name : ".toList, [.plus .dot]⟩),
  ("Assessment Year", ⟨"Assessment Year : ".toList, [.rep .digit 4, .lit '-', .rep .digit 2]⟩),
  ("Financial Year", ⟨"Financial Year : ".toList, [.rep .digit 4, .lit '-', .rep .digit 2]⟩),
  ("Major Head", ⟨"Major Head : ".toList, [.plus .dot]⟩),
  ("Minor Head", ⟨"Minor Head : ".toList, [.plus .dot]⟩),
  ("Nature of Payment", ⟨"Nature of Payment : ".toList, [.plus .digitUpper]⟩),
  ("Amount (in Rs.)", ⟨"Amount (in Rs.) : ₹ ".toList, [.plus .digitComma]⟩),
  ("Amount (in words)", ⟨"Amount (in words) : ".toList, [.plus .dot]⟩),
  ("CIN", ⟨"CIN : ".toList, [.plus .word]⟩),
  ("Mode of Payment", ⟨"Mode of Payment : ".toList, [.plus .dot]⟩),
  ("Bank Name", ⟨"Bank Name : ".toList, [.plus .dot]⟩),
  ("Bank Reference Number", ⟨"Bank Reference Number : ".toList, [.plus .word]⟩),
  ("Date of Deposit",
    ⟨"Date of Deposit : ".toList,
     [.rep .digit 2, .lit '-', .rep .alpha 3, .lit '-', .rep .digit 4]⟩),
  ("BSR code", ⟨"BSR code : ".toList, [.plus .digit]⟩),
  ("Challan No", ⟨"Challan No : ".toList, [.plus .digit]⟩),
  ("Tender Date",
    ⟨"Tender Date : ".toList,
     [.rep .digit 2, .lit '/', .rep .digit 2, .lit '/', .rep .digit 4]⟩),
  ("Tax", ⟨"A Tax ₹ ".toList, [.plus .digitComma]⟩),
  ("Surcharge", ⟨"B Surcharge ₹ ".toList, [.plus .digitComma]⟩),
  ("Cess", ⟨"C Cess ₹ ".toList, [.plus .digitComma]⟩),
  ("Interest", ⟨"D Interest ₹ ".toList, [.plus .digitComma]⟩),
  ("Penalty", ⟨"E Penalty ₹ ".toList, [.plus .digitComma]⟩),
  ("Fee under section 234E", ⟨"F Fee under section 234E ₹ ".toList, [.plus .digitComma]⟩),
  ("Total", ⟨"Total (A+B+C+D+E+F) ₹ ".toList, [.plus .digitComma]⟩)]

/-- The catalog's field names, in catalog order. -/
def patternKeys : List String := patterns.map Prod.fst

/-- `field_keys = ["Filename"] + list(patterns.keys())`. -/
def fieldKeys : List String := "Filename" :: patternKeys

/-- Truthiness filter of the page-text generator: `if page.extract_text()`.
`none` models a page whose text is undetectable, `some ""` an empty text. -/
def pageKept : Option String → Bool
  | none => false
  | some s => s != ""

/-- The text extractor: join the truthy page texts with one newline,
in page order. -/
def extractText (pages : List (Option String)) : String :=
  String.intercalate "\n" ((pages.filter pageKept).map (fun o => o.getD ""))

/-- The matching loop over the catalog, producing the dict entries it adds. -/
def matchFields (text : String) : List (String × Option String) :=
  patterns.map (fun kp => (kp.1, matchField kp.2 text))

/-- The `except` handler's loop: `for key in patterns.keys(): if key not in
data: data[key] = "Error"` (dict insertion appends at the end). -/
def fillMissing (ks : List String) (data : List (String × Option String)) :
    List (String × Option String) :=
  ks.foldl (fun d k => if d.any (fun e => e.1 == k) then d else d ++ [(k, some "Error")]) data

/-- How a document behaves when pdfplumber processes it: either it opens and
its pages deliver the given texts, or a fault is raised while opening or
reading it (nothing in the matching loop itself can raise: the patterns are
fixed valid regexes applied to a string). -/
inductive DocBehavior where
  | pages (ps : List (Option String))
  | fault
deriving DecidableEq

/-- `extract_data_from_pdf`: record the filename, then either match every
catalog field against the extracted text, or, when the document raised, fill
every key not already present with the `"Error"` marker. -/
def extract_data_from_pdf (name : String) : DocBehavior → List (String × Option String)
  | .pages ps => ("Filename", some name) :: matchFields (extractText ps)
  | .fault => fillMissing patternKeys [("Filename", some name)]

/-- Generalization of the `except` path: the record produced when a fault is
raised after the matching loop has already assigned the first `k` catalog
fields (the handler fills only the keys not already present in `data`).
`extract_data_from_pdf name .fault` is the `k = 0` instance. -/
def extractDataFaultAt (name : String) (ps : List (Option String)) (k : Nat) :
    List (String × Option String) :=
  fillMissing patternKeys
    (("Filename", some name) ::
      (patterns.take k).map (fun kp => (kp.1, matchField kp.2 (extractText ps))))

/-- `all_data`: one record per uploaded file, in upload order. -/
def df_rows (docs : List (String × DocBehavior)) : List (List (String × Option String)) :=
  docs.map (fun d => extract_data_from_pdf d.1 d.2)

/-- The displayed/downloadable table: a header and the cell rows. -/
structure ResultTable where
  header : List String
  rows : List (List (Option String))
deriving DecidableEq

/-- Column selection `df[field_keys]`: for each field key, the record's value
under that key (every record produced by the program has every key). -/
def projectRow (rec : List (String × Option String)) : List (Option String) :=
  fieldKeys.map (fun k => (List.lookup k rec).getD none)

/-- The DataFrame built from `all_data`, columns reordered to `field_keys`. -/
def buildTable (docs : List (String × DocBehavior)) : ResultTable :=
  { header := fieldKeys, rows := (df_rows docs).map projectRow }

/-- The `if uploaded_files:` branch: a table is built only for a non-empty
upload list; an empty (falsy) list takes the `else` branch, which only shows
an informational prompt and builds no table. -/
def appResult (docs : List (String × DocBehavior)) : Option ResultTable :=
  if docs.isEmpty then none else some (buildTable docs)

/-- A CSV cell needs quoting when it contains the delimiter, the quote
character, or a line break (the csv module's minimal quoting). -/
def csvNeedsQuote (s : String) : Bool :=
  s.toList.any (fun c => c == ',' || c == Char.ofNat 34 || c == '\n' || c == '\r')

/-- Render one CSV cell from a string, doubling embedded quote characters
when the cell is quoted. -/
def csvField (s : String) : String :=
  if csvNeedsQuote s then
    "\"" ++ String.join (s.toList.map (fun c => if c == Char.ofNat 34 then "\"\"" else c.toString)) ++ "\""
  else s

/-- A missing value (Python `None`) renders as the empty cell. -/
def csvCell : Option String → String
  | none => ""
  | some s => csvField s

/-- `convert_df_to_csv`: `df.to_csv(index=False)` — a header line then one
line per row, comma-separated, each line terminated by a newline. -/
def convert_df_to_csv (t : ResultTable) : String :=
  String.join
    (((t.header.map csvField) :: t.rows.map (fun r => r.map csvCell)).map
      (fun cells => String.intercalate "," cells ++ "\n"))

/-- The whole pipeline: upload list in, serialized export out (when the
upload list is non-empty). -/
def runPipeline (docs : List (String × DocBehavior)) : Option String :=
  (appResult docs).map convert_df_to_csv

/-- Spec-side recursive description of the text extractor's page selection:
pages without text contribute nothing, pages with text contribute their text,
in page order. -/
def pageTexts : List (Option String) → List String
  | [] => []
  | none :: ps => pageTexts ps
  | some s :: ps => if s = "" then pageTexts ps else s :: pageTexts ps

/-! ### Helper lemmas about the except-handler loop `fillMissing` -/

theorem fillMissing_nil (data : List (String × Option String)) :
    fillMissing [] data = data := rfl

theorem fillMissing_cons_mem (ks : List String) (data : List (String × Option String))
    (k : String) (h : data.any (fun e => e.1 == k) = true) :
    fillMissing (k :: ks) data = fillMissing ks data := by
  simp [fillMissing, h]

theorem fillMissing_cons_new (ks : List String) (data : List (String × Option String))
    (k : String) (h : data.any (fun e => e.1 == k) = false) :
    fillMissing (k :: ks) data = fillMissing ks (data ++ [(k, some "Error")]) := by
  simp [fillMissing, h]

theorem fillMissing_append_mem (ks₁ : List String) :
    ∀ (ks₂ : List String) (data : List (String × Option String)),
    (∀ k ∈ ks₁, data.any (fun e => e.1 == k) = true) →
    fillMissing (ks₁ ++ ks₂) data = fillMissing ks₂ data := by
  induction ks₁ with
  | nil => intro ks₂ data _; rfl
  | cons k ks ih =>
    intro ks₂ data h
    rw [List.cons_append, fillMissing_cons_mem _ _ _ (h k (List.mem_cons_self _ _))]
    exact ih ks₂ data (fun x hx => h x (List.mem_cons_of_mem _ hx))

theorem fillMissing_all_new (ks : List String) :
    ∀ (data : List (String × Option String)),
    ks.Nodup → (∀ k ∈ ks, data.any (fun e => e.1 == k) = false) →
    fillMissing ks data = data ++ ks.map (fun k => (k, some "Error")) := by
  induction ks with
  | nil => intro data _ _; simp [fillMissing]
  | cons k ks ih =>
    intro data hnd h
    rw [fillMissing_cons_new _ _ _ (h k (List.mem_cons_self _ _))]
    rw [ih (data ++ [(k, some "Error")]) hnd.of_cons ?_]
    · simp
    · intro x hx
      have hx' : data.any (fun e => e.1 == x) = false := h x (List.mem_cons_of_mem _ hx)
      have hkx : k ≠ x := fun hkx => (List.nodup_cons.mp hnd).1 (hkx ▸ hx)
      simp [List.any_append, hx', hkx]

/-! ### Facts about the concrete catalog -/

theorem patternKeys_nodup : patternKeys.Nodup := by decide

theorem filename_not_key : ("Filename" : String) ∉ patternKeys := by decide

/-- The record the `except` handler produces for a document that raised before
any field was matched: the filename, then `"Error"` for every catalog field. -/
theorem extract_fault_eq (name : String) :
    extract_data_from_pdf name DocBehavior.fault =
      ("Filename", some name) :: patterns.map (fun kp => (kp.1, some "Error")) := by
  have hno : ∀ k ∈ patternKeys,
      ([(("Filename" : String), some name)]).any (fun e => e.1 == k) = false := by
    intro k hk
    have hne : ("Filename" : String) ≠ k := fun h => filename_not_key (h ▸ hk)
    simp [hne]
  have h0 : extract_data_from_pdf name DocBehavior.fault =
      fillMissing patternKeys [("Filename", some name)] := rfl
  rw [h0, fillMissing_all_new _ _ patternKeys_nodup hno]
  simp [patternKeys, List.map_map, Function.comp]

/-! ### Characterization of `reSearch` as leftmost search -/

theorem reSearch_none (p : Pat) :
    ∀ (s : List Char), reSearch p s = none → ∀ i, matchAt p (s.drop i) = none := by
  intro s
  induction s with
  | nil =>
    intro h i
    simp only [List.drop_nil]
    simpa [reSearch] using h
  | cons c s ih =>
    intro h i
    cases hm : matchAt p (c :: s) with
    | some g =>
      simp only [reSearch] at h
      rw [hm] at h
      simp at h
    | none =>
      simp only [reSearch] at h
      rw [hm] at h
      cases i with
      | zero => simpa using hm
      | succ j => simpa using ih h j

theorem reSearch_some (p : Pat) :
    ∀ (s g : List Char), reSearch p s = some g →
      ∃ i, matchAt p (s.drop i) = some g ∧ ∀ j, j < i → matchAt p (s.drop j) = none := by
  intro s
  induction s with
  | nil =>
    intro g h
    exact ⟨0, by simpa [reSearch] using h, fun j hj => absurd hj (by omega)⟩
  | cons c s ih =>
    intro g h
    cases hm : matchAt p (c :: s) with
    | some g' =>
      simp only [reSearch] at h
      rw [hm] at h
      simp only [Option.some.injEq] at h
      exact ⟨0, by simpa [h] using hm, fun j hj => absurd hj (by omega)⟩
    | none =>
      simp only [reSearch] at h
      rw [hm] at h
      obtain ⟨i, h1, h2⟩ := ih g h
      refine ⟨i + 1, by simpa using h1, ?_⟩
      intro j hj
      cases j with
      | zero => simpa using hm
      | succ j' => simpa using h2 j' (by omega)

/-! ### A successful search implies the label's characters occur in the text -/

theorem dropLit_mem : ∀ (lp s r : List Char), dropLit lp s = some r → ∀ c ∈ lp, c ∈ s := by
  intro lp
  induction lp with
  | nil =>
    intro s r _ c hc
    exact absurd hc (List.not_mem_nil c)
  | cons p lp ih =>
    intro s r h c hc
    cases s with
    | nil => simp [dropLit] at h
    | cons x xs =>
      by_cases hpx : (p == x) = true
      · simp only [dropLit, hpx, if_true] at h
        rcases List.mem_cons.mp hc with rfl | hc'
        · exact (eq_of_beq hpx) ▸ List.mem_cons_self _ _
        · exact List.mem_cons_of_mem _ (ih xs r h c hc')
      · simp [dropLit, hpx] at h

theorem matchAt_mem (p : Pat) (s g : List Char) (h : matchAt p s = some g) :
    ∀ c ∈ p.pre, c ∈ s := by
  rw [matchAt] at h
  cases hd : dropLit p.pre s with
  | none => rw [hd] at h; simp at h
  | some r => exact dropLit_mem _ _ _ hd

theorem reSearch_mem (p : Pat) :
    ∀ (s g : List Char), reSearch p s = some g → ∀ c ∈ p.pre, c ∈ s := by
  intro s
  induction s with
  | nil =>
    intro g h
    exact matchAt_mem p [] g (by simpa [reSearch] using h)
  | cons x s ih =>
    intro g h c hc
    cases hm : matchAt p (x :: s) with
    | some g' => exact matchAt_mem p _ _ hm c hc
    | none =>
      simp only [reSearch] at h
      rw [hm] at h
      exact List.mem_cons_of_mem _ (ih g h c hc)

/-! ### The text extractor versus its page-selection description -/

theorem extractText_pageTexts (ps : List (Option String)) :
    (ps.filter pageKept).map (fun o => o.getD "") = pageTexts ps := by
  induction ps with
  | nil => rfl
  | cons o ps ih =>
    cases o with
    | none => simpa [pageKept, pageTexts] using ih
    | some s =>
      by_cases hs : s = ""
      · subst hs
        simpa [pageKept, pageTexts] using ih
      · simp [pageKept, pageTexts, hs, ih]

theorem pageTexts_all_blank : ∀ (ps : List (Option String)),
    (∀ o ∈ ps, o = none ∨ o = some "") → pageTexts ps = [] := by
  intro ps
  induction ps with
  | nil => intro _; rfl
  | cons o ps ih =>
    intro h
    rcases h o (List.mem_cons_self _ _) with rfl | rfl
    · exact ih (fun x hx => h x (List.mem_cons_of_mem _ hx))
    · simpa [pageTexts] using ih (fun x hx => h x (List.mem_cons_of_mem _ hx))

/-- Claim C1: a fault while processing one document does not abort the batch —
the faulting document still yields a record whose `sourceId` (`Filename`) is
set and whose every catalog field is the ErrorMarker `some "Error"` (distinct
from the not-found marker `none`), and the documents before and after it are
processed exactly as they would be on their own. -/
theorem C1_fault_containment (docsPre docsPost : List (String × DocBehavior)) (name : String) :
    df_rows (docsPre ++ (name, DocBehavior.fault) :: docsPost) =
      df_rows docsPre ++
        (("Filename", some name) :: patterns.map (fun kp => (kp.1, some "Error"))) ::
          df_rows docsPost
    ∧ (some "Error" : Option String) ≠ none := by
  refine ⟨?_, by simp⟩
  simp [df_rows, extract_fault_eq]

/-- Claim C5: every record produced by a batch run — including records for
documents that failed to parse — has exactly the key list `Filename` followed
by the catalog fields in catalog order, and every row of the built table has
the same length as the header, so the table is rectangular. -/
theorem C5_rectangular :
    (∀ (name : String) (b : DocBehavior),
        (extract_data_from_pdf name b).map Prod.fst = fieldKeys)
    ∧ ∀ (docs : List (String × DocBehavior)) (r : List (Option String)),
        r ∈ (buildTable docs).rows → r.length = fieldKeys.length := by
  constructor
  · intro name b
    cases b with
    | pages ps =>
      simp [extract_data_from_pdf, matchFields, fieldKeys, patternKeys,
        List.map_map, Function.comp]
    | fault =>
      rw [extract_fault_eq]
      simp [fieldKeys, patternKeys, List.map_map, Function.comp]
  · intro docs r hr
    simp only [buildTable, List.mem_map] at hr
    obtain ⟨rec, _, rfl⟩ := hr
    simp [projectRow]

theorem C5_rectangular_witness :
    (projectRow (extract_data_from_pdf "a.pdf" DocBehavior.fault)).length = fieldKeys.length := by
  refine (C5_rectangular).2 [("a.pdf", DocBehavior.fault)] _ ?_
  simp [buildTable, df_rows]

/-- Claim C10: when a fault is raised after the matching loop has already
assigned the first `k` catalog fields, the handler fills only the fields not
yet assigned with the ErrorMarker: the filename keeps its value, the first
`k` fields keep their matched values, and exactly the remaining fields are
set to `some "Error"`. -/
theorem C10_fault_midway_preserves (name : String) (ps : List (Option String)) (k : Nat) :
    extractDataFaultAt name ps k =
      ("Filename", some name) ::
        ((patterns.take k).map (fun kp => (kp.1, matchField kp.2 (extractText ps))) ++
          (patterns.drop k).map (fun kp => (kp.1, some "Error"))) := by
  have hsplit : patternKeys =
      (patterns.take k).map Prod.fst ++ (patterns.drop k).map Prod.fst := by
    rw [← List.map_append, List.take_append_drop]; rfl
  have hnd : ((patterns.take k).map Prod.fst ++ (patterns.drop k).map Prod.fst).Nodup := by
    rw [← hsplit]; exact patternKeys_nodup
  obtain ⟨hnd1, hnd2, hdisj⟩ := List.nodup_append.mp hnd
  have hmem : ∀ x ∈ (patterns.take k).map Prod.fst,
      (("Filename", some name) ::
        (patterns.take k).map (fun kp => (kp.1, matchField kp.2 (extractText ps)))).any
          (fun e => e.1 == x) = true := by
    intro x hx
    obtain ⟨kp, hkp, rfl⟩ := List.mem_map.mp hx
    refine List.any_eq_true.mpr
      ⟨(kp.1, matchField kp.2 (extractText ps)), ?_, by simp⟩
    exact List.mem_cons_of_mem _ (List.mem_map_of_mem _ hkp)
  have hnew : ∀ x ∈ (patterns.drop k).map Prod.fst,
      (("Filename", some name) ::
        (patterns.take k).map (fun kp => (kp.1, matchField kp.2 (extractText ps)))).any
          (fun e => e.1 == x) = false := by
    intro x hx
    have hxk : ("Filename" : String) ≠ x := by
      intro h
      exact filename_not_key (hsplit ▸ List.mem_append_right _ (h ▸ hx))
    have hnoex : ¬ ∃ e, e ∈ (("Filename", some name) ::
        (patterns.take k).map (fun kp => (kp.1, matchField kp.2 (extractText ps)))) ∧
        (e.1 == x) = true := by
      rintro ⟨e, he, hbe⟩
      rcases List.mem_cons.mp he with rfl | he'
      · exact hxk (eq_of_beq hbe)
      · obtain ⟨kp, hkp, rfl⟩ := List.mem_map.mp he'
        have h1 : kp.1 = x := eq_of_beq hbe
        exact hdisj (List.mem_map_of_mem _ hkp) (h1 ▸ hx)
    rw [← Bool.not_eq_true, List.any_eq_true]
    simpa using hnoex
  calc extractDataFaultAt name ps k
      = fillMissing ((patterns.take k).map Prod.fst ++ (patterns.drop k).map Prod.fst)
          (("Filename", some name) ::
            (patterns.take k).map (fun kp => (kp.1, matchField kp.2 (extractText ps)))) := by
        rw [extractDataFaultAt, hsplit]
    _ = fillMissing ((patterns.drop k).map Prod.fst)
          (("Filename", some name) ::
            (patterns.take k).map (fun kp => (kp.1, matchField kp.2 (extractText ps)))) :=
        fillMissing_append_mem _ _ _ hmem
    _ = (("Filename", some name) ::
          (patterns.take k).map (fun kp => (kp.1, matchField kp.2 (extractText ps)))) ++
          ((patterns.drop k).map Prod.fst).map (fun x => (x, some "Error")) :=
        fillMissing_all_new _ _ hnd2 hnew
    _ = ("Filename", some name) ::
          ((patterns.take k).map (fun kp => (kp.1, matchField kp.2 (extractText ps))) ++
            (patterns.drop k).map (fun kp => (kp.1, some "Error"))) := by
        simp [List.map_map, Function.comp_def]

/-- Claim C2 as stated fails on the code: for an empty upload collection the
`if uploaded_files:` branch is not taken (an empty list is falsy), so no
ResultTable is produced at all — not even an empty one. -/
theorem C2_counterexample : appResult ([] : List (String × DocBehavior)) = none := rfl

/-- Claim C2 amended: an empty input collection yields no ResultTable (the
app only shows a prompt); a ResultTable is produced exactly for non-empty
collections, and any produced table carries the full column schema
(`Filename` plus all catalog field names). -/
theorem C2_empty_no_table (docs : List (String × DocBehavior)) :
    (appResult docs = none ↔ docs = []) ∧
    ∀ t, appResult docs = some t → t.header = fieldKeys := by
  cases docs with
  | nil =>
    refine ⟨⟨fun _ => rfl, fun _ => rfl⟩, fun t ht => ?_⟩
    simp [appResult] at ht
  | cons d ds =>
    refine ⟨⟨fun h => ?_, fun h => by simp at h⟩, fun t ht => ?_⟩
    · simp [appResult] at h
    · have h1 : appResult (d :: ds) = some (buildTable (d :: ds)) := by
        simp [appResult]
      rw [h1] at ht
      have h2 : t = buildTable (d :: ds) := (Option.some.injEq _ _).mp ht.symm
      rw [h2]
      rfl

theorem C2_empty_no_table_witness :
    appResult ([] : List (String × DocBehavior)) = none ∧
    (buildTable [("a.pdf", DocBehavior.fault)]).header = fieldKeys :=
  ⟨(C2_empty_no_table []).1.mpr rfl,
    (C2_empty_no_table [("a.pdf", DocBehavior.fault)]).2
      (buildTable [("a.pdf", DocBehavior.fault)]) rfl⟩

/-- Claim C3 as stated fails on the code: the currency-field locators require
the literal rupee sign. A text carrying the label and the amount but no
currency symbol does not match — the field comes back as the null marker
instead of the amount. -/
theorem C3_counterexample :
    List.lookup "Amount (in Rs.)" (matchFields "Amount (in Rs.) : 1,200") = some none := by
  decide

/-- Claim C3 amended: the currency fields' locators do not tolerate an absent
currency symbol — each such locator (exactly the eight listed fields) can
only match when the rupee sign occurs in the text, so a text without the
symbol never yields a value for a currency field. -/
theorem C3_currency_symbol_required :
    (patterns.filter (fun kp => kp.2.pre.contains '₹')).map Prod.fst =
      ["Amount (in Rs.)", "Tax", "Surcharge", "Cess", "Interest", "Penalty",
        "Fee under section 234E", "Total"] ∧
    ∀ kp ∈ patterns, '₹' ∈ kp.2.pre →
      ∀ (t : String) (g : List Char), reSearch kp.2 t.toList = some g → '₹' ∈ t.toList := by
  refine ⟨by decide, ?_⟩
  intro kp _ hsym t g h
  exact reSearch_mem kp.2 t.toList g h '₹' hsym

theorem C3_currency_symbol_required_witness : '₹' ∈ "A Tax ₹ 1,200".toList :=
  (C3_currency_symbol_required).2 ("Tax", ⟨"A Tax ₹ ".toList, [.plus .digitComma]⟩)
    (by decide) (by decide) "A Tax ₹ 1,200" "1,200".toList (by decide)

/-- Claim C4: the matcher's output contains every catalog field name in
catalog order; each field's value comes from searching the entire text
independently from the beginning — at the leftmost position where the
pattern matches, the capture group is taken, trimmed of surrounding
whitespace and nothing else — and is the null marker `none` (present in the
mapping, not the ErrorMarker) when no position matches. -/
theorem C4_matcher_contract (t : String) :
    (matchFields t).map Prod.fst = patterns.map Prod.fst ∧
    ∀ kp ∈ patterns,
      (kp.1, matchField kp.2 t) ∈ matchFields t ∧
      ((matchField kp.2 t = none ∧ ∀ i, matchAt kp.2 (t.toList.drop i) = none) ∨
        ∃ g i, matchAt kp.2 (t.toList.drop i) = some g ∧
          (∀ j, j < i → matchAt kp.2 (t.toList.drop j) = none) ∧
          matchField kp.2 t = some (pyStrip g)) := by
  constructor
  · simp [matchFields, List.map_map, Function.comp_def]
  · intro kp hkp
    refine ⟨List.mem_map.mpr ⟨kp, hkp, rfl⟩, ?_⟩
    cases hres : reSearch kp.2 t.toList with
    | none =>
      refine Or.inl ⟨?_, reSearch_none kp.2 t.toList hres⟩
      have hres' : reSearch kp.2 t.data = none := hres
      simp [matchField, hres']
    | some g =>
      obtain ⟨i, h1, h2⟩ := reSearch_some kp.2 t.toList g hres
      refine Or.inr ⟨g, i, h1, h2, ?_⟩
      have hres' : reSearch kp.2 t.data = some g := hres
      simp [matchField, hres']

theorem C4_matcher_contract_witness :
    ("TAN", some "ABCD12345E") ∈ matchFields "TAN : ABCD12345E" := by
  have h := ((C4_matcher_contract "TAN : ABCD12345E").2
    ("TAN", ⟨"TAN : ".toList, [.plus .word]⟩) (by decide)).1
  have hv : matchField ⟨"TAN : ".toList, [.plus .word]⟩ "TAN : ABCD12345E" =
      some "ABCD12345E" := by decide
  rw [hv] at h
  exact h

/-- Claim C6: for a non-empty batch the app builds the table, the table has
one row per input document, and the rows are the input documents' records in
input order. -/
theorem C6_rows_match_input (docs : List (String × DocBehavior)) (h : docs ≠ []) :
    appResult docs = some (buildTable docs) ∧
    (buildTable docs).rows.length = docs.length ∧
    (buildTable docs).rows = docs.map (fun d => projectRow (extract_data_from_pdf d.1 d.2)) := by
  cases docs with
  | nil => exact absurd rfl h
  | cons d ds =>
    refine ⟨by simp [appResult], by simp [buildTable, df_rows], ?_⟩
    simp [buildTable, df_rows, List.map_map, Function.comp_def]

theorem C6_rows_match_input_witness :
    appResult [("a.pdf", DocBehavior.fault)] = some (buildTable [("a.pdf", DocBehavior.fault)]) ∧
    (buildTable [("a.pdf", DocBehavior.fault)]).rows.length = 1 ∧
    (buildTable [("a.pdf", DocBehavior.fault)]).rows =
      [projectRow (extract_data_from_pdf "a.pdf" DocBehavior.fault)] := by
  have h := C6_rows_match_input [("a.pdf", DocBehavior.fault)] (by simp)
  exact ⟨h.1, h.2.1, h.2.2⟩

/-- Claim C7: the text extractor returns the texts of exactly the pages with
non-empty detectable text, in page order, joined by single newlines; a
document none of whose pages yields text produces the empty string. -/
theorem C7_text_extractor (ps : List (Option String)) :
    extractText ps = String.intercalate "\n" (pageTexts ps) ∧
    ((∀ o ∈ ps, o = none ∨ o = some "") → extractText ps = "") := by
  have hbase : extractText ps = String.intercalate "\n" (pageTexts ps) := by
    rw [extractText, extractText_pageTexts]
  refine ⟨hbase, fun h => ?_⟩
  rw [hbase, pageTexts_all_blank ps h]
  rfl

theorem C7_text_extractor_witness : extractText [none, some ""] = "" :=
  (C7_text_extractor [none, some ""]).2 (by decide)

/-- Claim C8: the serialized export is a pure, deterministic function of the
table's contents — equal inputs to the pipeline give an identical serialized
string (hence byte-identical UTF-8 output), and the serialization depends
only on the table's header and rows. -/
theorem C8_export_deterministic :
    (∀ (docsA docsB : List (String × DocBehavior)),
        docsA = docsB → runPipeline docsA = runPipeline docsB) ∧
    ∀ (tA tB : ResultTable), tA.header = tB.header → tA.rows = tB.rows →
      convert_df_to_csv tA = convert_df_to_csv tB := by
  constructor
  · intro dA dB h
    rw [h]
  · intro tA tB h1 h2
    cases tA
    cases tB
    dsimp only at h1 h2
    rw [convert_df_to_csv, convert_df_to_csv]
    dsimp only
    rw [h1, h2]

theorem C8_export_deterministic_witness :
    runPipeline [("a.pdf", DocBehavior.fault)] = runPipeline [("a.pdf", DocBehavior.fault)] :=
  (C8_export_deterministic).1 _ _ rfl

/-- Claim C9: on a document whose text holds the Tax line and the Total line
and no other breakdown line, matching yields `1,200` for Tax and Total and
the null marker for the other five breakdown fields. -/
theorem C9_breakdown_scenario :
    List.lookup "Tax" (extract_data_from_pdf "c.pdf"
        (DocBehavior.pages [some "A Tax ₹ 1,200", some "Total (A+B+C+D+E+F) ₹ 1,200"])) =
      some (some "1,200") ∧
    List.lookup "Total" (extract_data_from_pdf "c.pdf"
        (DocBehavior.pages [some "A Tax ₹ 1,200", some "Total (A+B+C+D+E+F) ₹ 1,200"])) =
      some (some "1,200") ∧
    List.lookup "Surcharge" (extract_data_from_pdf "c.pdf"
        (DocBehavior.pages [some "A Tax ₹ 1,200", some "Total (A+B+C+D+E+F) ₹ 1,200"])) =
      some none ∧
    List.lookup "Cess" (extract_data_from_pdf "c.pdf"
        (DocBehavior.pages [some "A Tax ₹ 1,200", some "Total (A+B+C+D+E+F) ₹ 1,200"])) =
      some none ∧
    List.lookup "Interest" (extract_data_from_pdf "c.pdf"
        (DocBehavior.pages [some "A Tax ₹ 1,200", some "Total (A+B+C+D+E+F) ₹ 1,200"])) =
      some none ∧
    List.lookup "Penalty" (extract_data_from_pdf "c.pdf"
        (DocBehavior.pages [some "A Tax ₹ 1,200", some "Total (A+B+C+D+E+F) ₹ 1,200"])) =
      some none ∧
    List.lookup "Fee under section 234E" (extract_data_from_pdf "c.pdf"
        (DocBehavior.pages [some "A Tax ₹ 1,200", some "Total (A+B+C+D+E+F) ₹ 1,200"])) =
      some none := by
  decide

end Challan
